import Mathlib

/-!
Verification of the node protocol engine of the state_machine repository.

The development shallowly embeds the Rust source:
  - src/node/state.rs   : the State enumeration;
  - src/node/message.rs : the Message struct and MessageType enumeration,
    together with the serde_json data-model mapping that the derived
    Serialize and Deserialize instances induce;
  - src/node/node.rs    : the protocol logic of Node — the majority
    threshold, the acknowledgment tracker operations performed by the
    Acknowledgment arm of handle_incoming_messages, the Proposal and
    Commit arms of handle_incoming_messages, the broadcast loops of
    broadcast_proposal and wait_for_acknowledgments, and the polling
    loop of wait_for_acknowledgments.

Mutable shared containers map to explicit values threaded through the
functions: HashMap String (HashSet u64) becomes an association list of
proposal id to the list of distinct sender ids, HashMap u64 String
becomes an association list of node id to address, u64 becomes Nat
(no arithmetic is performed on identifiers, so no overflow is
involved).  Network sends are parameterised by an oracle telling which
destination addresses accept the send; a Rust panic (unwrap on a
failed send, indexing a HashMap at a missing key) is modelled by the
error branch of Except or by none.
-/

namespace StateMachine

/-- Lifecycle state of a node, from src/node/state.rs. -/
inductive State where
  | Init
  | Running
  | Stopped
deriving DecidableEq, Repr

/-- Kind of a message exchanged between nodes, from src/node/message.rs. -/
inductive MessageType where
  | Proposal
  | Acknowledgment
  | Commit
deriving DecidableEq, Repr

/-- A message exchanged between nodes, from src/node/message.rs.
The Rust field sender_id has type u64; it is embedded as Nat, and no
arithmetic is ever performed on it. -/
structure Message where
  sender_id : Nat
  message_type : MessageType
  proposed_state : State
  proposal_id : String
deriving DecidableEq, Repr

/-- The serde_json data model: the values that Serialize instances
produce and Deserialize instances consume.  Only the fragment used by
Message is needed: numbers, strings and objects. -/
inductive Json where
  | num (n : Nat)
  | str (s : String)
  | obj (fields : List (String × Json))

/-- Reads a number out of a Json value. -/
def Json.asNum : Json → Option Nat
  | .num n => some n
  | _ => none

/-- Reads a string out of a Json value. -/
def Json.asStr : Json → Option String
  | .str s => some s
  | _ => none

/-- Looks up a field of a Json object by name. -/
def Json.getField : Json → String → Option Json
  | .obj fields, key => fields.lookup key
  | _, _ => none

/-- Serialization of MessageType induced by the derived Serialize
instance: a unit enum variant serializes as its name. -/
def MessageType.toJson : MessageType → Json
  | .Proposal => .str "Proposal"
  | .Acknowledgment => .str "Acknowledgment"
  | .Commit => .str "Commit"

/-- Deserialization of MessageType induced by the derived Deserialize
instance: exactly the three variant names are accepted. -/
def MessageType.fromJson : Json → Option MessageType
  | .str "Proposal" => some .Proposal
  | .str "Acknowledgment" => some .Acknowledgment
  | .str "Commit" => some .Commit
  | _ => none

/-- Serialization of State induced by the derived Serialize instance. -/
def State.toJson : State → Json
  | .Init => .str "Init"
  | .Running => .str "Running"
  | .Stopped => .str "Stopped"

/-- Deserialization of State induced by the derived Deserialize
instance. -/
def State.fromJson : Json → Option State
  | .str "Init" => some .Init
  | .str "Running" => some .Running
  | .str "Stopped" => some .Stopped
  | _ => none

/-- Serialization of Message induced by the derived Serialize instance:
an object with the four fields in declaration order. -/
def Message.toJson (m : Message) : Json :=
  .obj [("sender_id", .num m.sender_id),
        ("message_type", m.message_type.toJson),
        ("proposed_state", m.proposed_state.toJson),
        ("proposal_id", .str m.proposal_id)]

/-- Deserialization of Message induced by the derived Deserialize
instance: each field is looked up by name and decoded. -/
def Message.fromJson (j : Json) : Option Message := do
  let sid ← (← j.getField "sender_id").asNum
  let mt ← MessageType.fromJson (← j.getField "message_type")
  let ps ← State.fromJson (← j.getField "proposed_state")
  let pid ← (← j.getField "proposal_id").asStr
  pure ⟨sid, mt, ps, pid⟩

/-- The acknowledgment tracker proposal_acknowledgments, a
HashMap String (HashSet u64), embedded as an association list from
proposal id to the list of distinct acknowledging sender ids. -/
def Tracker : Type := List (String × List Nat)

/-- The Acknowledgment arm of handle_incoming_messages, node.rs lines
144 to 155: when a set already exists for the proposal id, insert the
sender into it (HashSet insert leaves the set unchanged when the
element is already present); otherwise create a fresh set holding only
the sender. -/
def recordAck : Tracker → String → Nat → Tracker
  | [], pid, s => [(pid, [s])]
  | (k, senders) :: rest, pid, s =>
    if k = pid then
      (k, if s ∈ senders then senders else s :: senders) :: rest
    else
      (k, senders) :: recordAck rest pid s

/-- The acknowledgment count read in wait_for_acknowledgments, node.rs
lines 88 to 93: the size of the set for the proposal id, or 0 when the
id is absent. -/
def ackCount : Tracker → String → Nat
  | [], _ => 0
  | (k, senders) :: rest, pid =>
    if k = pid then senders.length else ackCount rest pid

/-- The protocol-relevant configuration of a Node from node.rs: the
node id and the peer table (HashMap u64 String, embedded as an
association list from node id to address). -/
structure Node where
  id : Nat
  peers : List (Nat × String)

/-- The majority threshold computed at the top of
wait_for_acknowledgments, node.rs line 86: peers.len() / 2 + 1 with
truncating natural division. -/
def Node.majority (n : Node) : Nat :=
  n.peers.length / 2 + 1

/-- The Proposal message constructed in broadcast_proposal, node.rs
lines 60 to 66: it carries the node id, the proposed state and the
freshly minted proposal id. -/
def proposalMessage (n : Node) (new_state : State) (pid : String) : Message :=
  ⟨n.id, .Proposal, new_state, pid⟩

/-- The Commit message constructed in wait_for_acknowledgments,
node.rs lines 98 to 103: its proposed_state field is the literal
State::Running, whatever state the proposal carried. -/
def commitMessage (n : Node) (pid : String) : Message :=
  ⟨n.id, .Commit, .Running, pid⟩

/-- The send loop of broadcast_proposal, node.rs lines 69 to 73,
parameterised by the oracle sendOk telling which destination addresses
accept a send.  Every peer address is attempted in order; a failed
send only appends a diagnostic to the log and the loop continues.
Returns the attempted sends and the log. -/
def broadcastProposalLoop (msg : Message) (sendOk : String → Bool) :
    List (Nat × String) → List (Message × String) × List String
  | [] => ([], [])
  | (_, addr) :: rest =>
    let tail := broadcastProposalLoop msg sendOk rest
    ((msg, addr) :: tail.1,
     if sendOk addr then tail.2 else ("Failed to send proposal: " ++ addr) :: tail.2)

/-- The commit send loop of wait_for_acknowledgments, node.rs lines
105 to 107: each send result is unwrapped, so the first failed send
panics — modelled as the error branch carrying the failing address —
and the remaining peers are not attempted.  On success it returns the
sends made, one per peer in order. -/
def commitBroadcastLoop (msg : Message) (sendOk : String → Bool) :
    List (Nat × String) → Except String (List (Message × String))
  | [] => .ok []
  | (_, addr) :: rest =>
    if sendOk addr then
      match commitBroadcastLoop msg sendOk rest with
      | .ok sends => .ok ((msg, addr) :: sends)
      | .error e => .error e
    else
      .error addr

/-- The shared mutable entities the message router touches: the state
store (Arc Mutex State) and the acknowledgment tracker. -/
structure RouterState where
  state : State
  acks : Tracker

/-- One iteration of the loop body of handle_incoming_messages,
node.rs lines 121 to 157, on a received message.  ackSendOk tells
whether the acknowledgment send back to the proposer succeeds; a
failure is only logged.  The result is none exactly when the code
panics: the Proposal arm indexes self.peers at the sender id, which
panics when the sender is absent from the peer table.  Otherwise the
result carries the updated router state, the messages sent with their
destinations, and the log of send failures.  The wildcard arm, which
Commit messages fall into, does nothing. -/
def handleMessage (n : Node) (rs : RouterState) (msg : Message) (ackSendOk : Bool) :
    Option (RouterState × List (Message × String) × List String) :=
  match msg.message_type with
  | .Proposal =>
    match n.peers.lookup msg.sender_id with
    | none => none
    | some addr =>
      let ack : Message := ⟨n.id, .Acknowledgment, msg.proposed_state, msg.proposal_id⟩
      some (⟨msg.proposed_state, rs.acks⟩, [(ack, addr)],
            if ackSendOk then [] else ["Failed to send acknowledgment"])
  | .Acknowledgment =>
      some (⟨rs.state, recordAck rs.acks msg.proposal_id msg.sender_id⟩, [], [])
  | .Commit => some (rs, [], [])

/-- The polling loop of wait_for_acknowledgments, node.rs lines 88 to
115, run for fuel iterations starting at poll index i.  counts j is
the acknowledgment count read from the tracker at the j-th poll (the
tracker is mutated concurrently by the router, so successive reads may
differ).  The result is none when the fuel is exhausted with every
polled count below the majority — the real loop sleeps 100ms and polls
again, never returning; it is some r when the count reached the
majority, where r is the outcome of the commit broadcast: ok with the
sends made on normal return, error on the panic of an unwrapped failed
send. -/
def waitForAcksLoop (n : Node) (pid : String) (counts : Nat → Nat) (sendOk : String → Bool) :
    Nat → Nat → Option (Except String (List (Message × String)))
  | _, 0 => none
  | i, fuel + 1 =>
    if n.majority ≤ counts i then
      some (commitBroadcastLoop (commitMessage n pid) sendOk n.peers)
    else
      waitForAcksLoop n pid counts sendOk (i + 1) fuel

/-! Helper lemmas. -/

/-- Recording the same sender twice for the same proposal id produces
the same tracker as recording it once: the HashSet insert in the
Acknowledgment arm is idempotent. -/
theorem recordAck_idem (t : Tracker) (pid : String) (s : Nat) :
    recordAck (recordAck t pid s) pid s = recordAck t pid s := by
  induction t with
  | nil => simp [recordAck]
  | cons hd tl ih =>
    obtain ⟨k, senders⟩ := hd
    by_cases hk : k = pid
    · subst hk
      by_cases hs : s ∈ senders <;> simp [recordAck, hs]
    · simp only [recordAck, if_neg hk]
      rw [ih]

/-! Claim theorems. -/

/-- C1: for every peer table of size P at least 1, the majority
threshold computed by wait_for_acknowledgments equals floor(P/2) + 1;
in particular for P = 1 the threshold is 1. -/
theorem majority_threshold (n : Node) (P : Nat) (hlen : n.peers.length = P)
    (hP : 1 ≤ P) :
    n.majority = P / 2 + 1 ∧ (P = 1 → n.majority = 1) := by
  subst hlen
  refine ⟨rfl, fun h1 => ?_⟩
  simp [Node.majority, h1]

/-- Witness for C1 at a node with exactly one peer. -/
theorem majority_threshold_witness :
    (Node.mk 1 [(2, "addr2")]).majority = 1 / 2 + 1 ∧
      (1 = 1 → (Node.mk 1 [(2, "addr2")]).majority = 1) :=
  majority_threshold ⟨1, [(2, "addr2")]⟩ 1 rfl (by decide)

/-- C2: acknowledgment recording is idempotent per proposal id and
sender: for every tracker state, recording the same sender twice for
the same proposal id leaves the tracked count for that proposal id
unchanged relative to recording it once. -/
theorem ack_recording_idempotent (t : Tracker) (pid : String) (s : Nat) :
    ackCount (recordAck (recordAck t pid s) pid s) pid
      = ackCount (recordAck t pid s) pid := by
  rw [recordAck_idem]

/-- Characterization of the Proposal arm of handle_incoming_messages
when the sender is present in the peer table: one Acknowledgment is
sent to the looked-up address, the state store is overwritten with the
proposed state, the tracker is untouched, and a failed acknowledgment
send is only logged. -/
theorem handleMessage_proposal (n : Node) (rs : RouterState) (msg : Message)
    (ackSendOk : Bool) (addr : String)
    (hty : msg.message_type = .Proposal)
    (haddr : n.peers.lookup msg.sender_id = some addr) :
    handleMessage n rs msg ackSendOk =
      some (⟨msg.proposed_state, rs.acks⟩,
            [(⟨n.id, .Acknowledgment, msg.proposed_state, msg.proposal_id⟩, addr)],
            if ackSendOk then [] else ["Failed to send acknowledgment"]) := by
  simp only [handleMessage, hty, haddr]

/-- C3: serializing a Message and then deserializing the result yields
a Message equal in all four fields to the original, for every variant
of message_type and proposed_state. -/
theorem message_roundtrip (m : Message) :
    Message.fromJson m.toJson = some m := by
  obtain ⟨sid, mt, ps, pid⟩ := m
  cases mt <;> cases ps <;> rfl

/-- C4: when the router processes a Proposal message (from a sender
present in the peer table, which the code requires on pain of a
panic), it unconditionally overwrites the state store with the
proposed_state of the message — for every current state and tracker
contents, regardless of quorum or any prior Commit: after handling,
the state store holds exactly the proposed_state carried by the
Proposal. -/
theorem proposal_overwrites_state (n : Node) (rs : RouterState) (msg : Message)
    (ackSendOk : Bool) (addr : String)
    (hty : msg.message_type = .Proposal)
    (haddr : n.peers.lookup msg.sender_id = some addr) :
    (handleMessage n rs msg ackSendOk).map (fun out => out.1.state)
      = some msg.proposed_state := by
  rw [handleMessage_proposal n rs msg ackSendOk addr hty haddr]
  rfl

/-- Witness for C4: a concrete Proposal for Running overwrites an Init
state store. -/
theorem proposal_overwrites_state_witness :
    (handleMessage ⟨2, [(1, "addr1")]⟩ ⟨State.Init, []⟩
        ⟨1, .Proposal, .Running, "p"⟩ true).map (fun out => out.1.state)
      = some State.Running :=
  proposal_overwrites_state ⟨2, [(1, "addr1")]⟩ ⟨State.Init, []⟩
    ⟨1, .Proposal, .Running, "p"⟩ true "addr1" rfl rfl

/-- C5: for every Proposal message whose sender is present in the peer
table, the router sends exactly one Acknowledgment, addressed to the
configured address looked up for the sender, carrying the same
proposal_id as the Proposal and the receiving node id as sender_id. -/
theorem proposal_sends_single_ack (n : Node) (rs : RouterState) (msg : Message)
    (ackSendOk : Bool) (addr : String)
    (hty : msg.message_type = .Proposal)
    (haddr : n.peers.lookup msg.sender_id = some addr) :
    ∃ rs2 logs, handleMessage n rs msg ackSendOk =
      some (rs2,
            [(⟨n.id, .Acknowledgment, msg.proposed_state, msg.proposal_id⟩, addr)],
            logs) :=
  ⟨_, _, handleMessage_proposal n rs msg ackSendOk addr hty haddr⟩

/-- Witness for C5: the concrete Proposal from node 1 makes node 2
send one Acknowledgment with the same proposal id back to addr1. -/
theorem proposal_sends_single_ack_witness :
    ∃ rs2 logs, handleMessage ⟨2, [(1, "addr1")]⟩ ⟨State.Init, []⟩
        ⟨1, .Proposal, .Running, "p"⟩ true =
      some (rs2, [(⟨2, .Acknowledgment, .Running, "p"⟩, "addr1")], logs) :=
  proposal_sends_single_ack ⟨2, [(1, "addr1")]⟩ ⟨State.Init, []⟩
    ⟨1, .Proposal, .Running, "p"⟩ true "addr1" rfl rfl

/-- C6: when the router processes a Commit message it performs no
handling: the state store, the tracker, the sent messages and the log
are all unchanged or empty — the wildcard arm does nothing. -/
theorem commit_no_handling (n : Node) (rs : RouterState) (msg : Message)
    (ackSendOk : Bool) (hty : msg.message_type = .Commit) :
    handleMessage n rs msg ackSendOk = some (rs, [], []) := by
  simp only [handleMessage, hty]

/-- Witness for C6: a concrete Commit message leaves a concrete router
state untouched. -/
theorem commit_no_handling_witness :
    handleMessage ⟨2, [(1, "addr1")]⟩ ⟨State.Init, [("p", [1])]⟩
        ⟨1, .Commit, .Running, "p"⟩ true
      = some (⟨State.Init, [("p", [1])]⟩, [], []) :=
  commit_no_handling ⟨2, [(1, "addr1")]⟩ ⟨State.Init, [("p", [1])]⟩
    ⟨1, .Commit, .Running, "p"⟩ true rfl

/-- C9: the Commit message broadcast by wait_for_acknowledgments
always carries proposed_state Running, hardcoded, for every proposal —
even when the state handed to broadcast_proposal and carried by the
Proposal message was Init or Stopped; the commit message is built
without reference to that state. -/
theorem commit_hardcodes_running (n : Node) (pid : String) (new_state : State) :
    (proposalMessage n new_state pid).proposed_state = new_state ∧
      (commitMessage n pid).proposed_state = State.Running ∧
      commitMessage n pid = ⟨n.id, .Commit, .Running, pid⟩ :=
  ⟨rfl, rfl, rfl⟩

/-- C10: a failure of the Acknowledgment send back to the proposer
does not prevent the local state overwrite: with the send failing, the
state store is still set to the proposed_state and the failure is only
logged. -/
theorem ack_send_failure_still_overwrites (n : Node) (rs : RouterState)
    (msg : Message) (addr : String)
    (hty : msg.message_type = .Proposal)
    (haddr : n.peers.lookup msg.sender_id = some addr) :
    handleMessage n rs msg false =
      some (⟨msg.proposed_state, rs.acks⟩,
            [(⟨n.id, .Acknowledgment, msg.proposed_state, msg.proposal_id⟩, addr)],
            ["Failed to send acknowledgment"]) :=
  handleMessage_proposal n rs msg false addr hty haddr

/-- Witness for C10: with the acknowledgment send failing, the
concrete Proposal still overwrites the state store to Running. -/
theorem ack_send_failure_still_overwrites_witness :
    handleMessage ⟨2, [(1, "addr1")]⟩ ⟨State.Init, []⟩
        ⟨1, .Proposal, .Running, "p"⟩ false =
      some (⟨State.Running, []⟩,
            [(⟨2, .Acknowledgment, .Running, "p"⟩, "addr1")],
            ["Failed to send acknowledgment"]) :=
  ack_send_failure_still_overwrites ⟨2, [(1, "addr1")]⟩ ⟨State.Init, []⟩
    ⟨1, .Proposal, .Running, "p"⟩ "addr1" rfl rfl

/-- The proposal broadcast attempts a send to every peer address, in
table order, whatever the send outcomes are. -/
theorem broadcastProposalLoop_sends (msg : Message) (sendOk : String → Bool) :
    ∀ peers : List (Nat × String),
      (broadcastProposalLoop msg sendOk peers).1
        = peers.map (fun p => (msg, p.2))
  | [] => rfl
  | (_, addr) :: rest => by
    simp [broadcastProposalLoop, broadcastProposalLoop_sends msg sendOk rest]

/-- When every send succeeds, the commit broadcast completes and sends
to every peer address in table order. -/
theorem commitBroadcastLoop_all_ok (msg : Message) (sendOk : String → Bool) :
    ∀ peers : List (Nat × String), (∀ p ∈ peers, sendOk p.2 = true) →
      commitBroadcastLoop msg sendOk peers
        = .ok (peers.map (fun p => (msg, p.2)))
  | [], _ => rfl
  | (i, addr) :: rest, h => by
    have hhd : sendOk addr = true := h (i, addr) (List.mem_cons_self _ _)
    have htl := commitBroadcastLoop_all_ok msg sendOk rest
      (fun p hp => h p (List.mem_cons_of_mem _ hp))
    simp [commitBroadcastLoop, hhd, htl]

/-- When some peer in the table refuses the send, the commit broadcast
ends in the panic branch. -/
theorem commitBroadcastLoop_fail (msg : Message) (sendOk : String → Bool) :
    ∀ peers : List (Nat × String), ∀ p ∈ peers, sendOk p.2 = false →
      ∃ e, commitBroadcastLoop msg sendOk peers = .error e
  | (i, addr) :: rest, p, hp, hfail => by
    rcases List.mem_cons.mp hp with heq | hmem
    · subst heq
      simp only at hfail
      exact ⟨addr, by simp [commitBroadcastLoop, hfail]⟩
    · by_cases hhd : sendOk addr = true
      · obtain ⟨e, he⟩ := commitBroadcastLoop_fail msg sendOk rest p hmem hfail
        exact ⟨e, by simp [commitBroadcastLoop, hhd, he]⟩
      · exact ⟨addr, by simp [commitBroadcastLoop, hhd]⟩

/-- Whenever the commit broadcast completes normally, the sends it
made are exactly one Commit per peer address in table order. -/
theorem commitBroadcastLoop_ok_shape (msg : Message) (sendOk : String → Bool) :
    ∀ (peers : List (Nat × String)) (sends : List (Message × String)),
      commitBroadcastLoop msg sendOk peers = .ok sends →
        sends = peers.map (fun p => (msg, p.2))
  | [], sends, h => by
    simp only [commitBroadcastLoop, Except.ok.injEq] at h
    simp [← h]
  | (i, addr) :: rest, sends, h => by
    by_cases hhd : sendOk addr = true
    · simp only [commitBroadcastLoop, hhd, if_true] at h
      cases hrec : commitBroadcastLoop msg sendOk rest with
      | ok tl =>
        rw [hrec] at h
        simp only [Except.ok.injEq] at h
        have htl := commitBroadcastLoop_ok_shape msg sendOk rest tl hrec
        simp [← h, htl]
      | error e =>
        rw [hrec] at h
        exact absurd h (by simp)
    · simp [commitBroadcastLoop, hhd] at h

/-- C8 counterexample: with two peers at addresses a and b and the
send to a failing, the commit broadcast of wait_for_acknowledgments
panics on the unwrapped failed send instead of logging it and sending
to b — the broadcast does not complete. -/
theorem commit_broadcast_abort_counterexample :
    commitBroadcastLoop (commitMessage ⟨1, [(2, "a"), (3, "b")]⟩ "p")
        (fun addr => addr != "a") [(2, "a"), (3, "b")]
      = .error "a" := by
  rfl

/-- C8 amended: in broadcast_proposal a send failure to one peer is
logged and does not block or abort sending to the remaining peers —
every peer is attempted and the operation completes normally; the
Commit broadcast in wait_for_acknowledgments instead unwraps each send
result, so it completes (sending to every peer) only when all sends
succeed, and a send failure to any peer makes it panic. -/
theorem broadcast_failure_isolation (msg : Message) (sendOk : String → Bool)
    (peers : List (Nat × String)) :
    (broadcastProposalLoop msg sendOk peers).1 = peers.map (fun p => (msg, p.2)) ∧
      ((∀ p ∈ peers, sendOk p.2 = true) →
        commitBroadcastLoop msg sendOk peers
          = .ok (peers.map (fun p => (msg, p.2)))) ∧
      (∀ p ∈ peers, sendOk p.2 = false →
        ∃ e, commitBroadcastLoop msg sendOk peers = .error e) :=
  ⟨broadcastProposalLoop_sends msg sendOk peers,
   commitBroadcastLoop_all_ok msg sendOk peers,
   fun p hp hfail => commitBroadcastLoop_fail msg sendOk peers p hp hfail⟩

/-- Witness for C8 amended: with every send succeeding, the commit
broadcast over one peer completes with exactly that one send. -/
theorem broadcast_failure_isolation_witness :
    commitBroadcastLoop (commitMessage ⟨1, [(2, "a")]⟩ "p") (fun _ => true)
        [(2, "a")]
      = .ok [(commitMessage ⟨1, [(2, "a")]⟩ "p", "a")] :=
  (broadcast_failure_isolation (commitMessage ⟨1, [(2, "a")]⟩ "p") (fun _ => true)
      [(2, "a")]).2.1 (fun _ _ => rfl)

/-- C7: the polling loop of wait_for_acknowledgments leaves the
polling phase only when some polled acknowledgment count has reached
the majority threshold; when it returns normally it has broadcast the
Commit message to every address in the peer table; and when every
polled count stays below the threshold it never returns, for any
amount of fuel — the code has no timeout or cancellation. -/
theorem wait_for_acknowledgments_spec (n : Node) (pid : String)
    (counts : Nat → Nat) (sendOk : String → Bool) :
    (∀ i fuel r, waitForAcksLoop n pid counts sendOk i fuel = some r →
        ∃ j, n.majority ≤ counts j) ∧
      (∀ i fuel sends,
        waitForAcksLoop n pid counts sendOk i fuel = some (.ok sends) →
          sends = n.peers.map (fun p => (commitMessage n pid, p.2))) ∧
      ((∀ j, counts j < n.majority) →
        ∀ i fuel, waitForAcksLoop n pid counts sendOk i fuel = none) := by
  refine ⟨?_, ?_, ?_⟩
  · intro i fuel
    induction fuel generalizing i with
    | zero => intro r h; simp [waitForAcksLoop] at h
    | succ k ih =>
      intro r h
      by_cases hc : n.majority ≤ counts i
      · exact ⟨i, hc⟩
      · simp only [waitForAcksLoop, if_neg hc] at h
        exact ih (i + 1) r h
  · intro i fuel
    induction fuel generalizing i with
    | zero => intro sends h; simp [waitForAcksLoop] at h
    | succ k ih =>
      intro sends h
      by_cases hc : n.majority ≤ counts i
      · simp only [waitForAcksLoop, if_pos hc, Option.some.injEq] at h
        exact commitBroadcastLoop_ok_shape _ _ _ _ h
      · simp only [waitForAcksLoop, if_neg hc] at h
        exact ih (i + 1) sends h
  · intro hlt i fuel
    induction fuel generalizing i with
    | zero => rfl
    | succ k ih =>
      have hc : ¬ n.majority ≤ counts i := Nat.not_le.mpr (hlt i)
      simp only [waitForAcksLoop, if_neg hc]
      exact ih (i + 1)

/-- Witness for C7: with one peer (threshold 1) and every polled count
0, the loop is still polling after 5 iterations. -/
theorem wait_for_acknowledgments_spec_witness :
    waitForAcksLoop ⟨1, [(2, "a")]⟩ "p" (fun _ => 0) (fun _ => true) 0 5 = none :=
  (wait_for_acknowledgments_spec ⟨1, [(2, "a")]⟩ "p" (fun _ => 0)
      (fun _ => true)).2.2 (fun _ => by decide) 0 5

end StateMachine
